import Mathlib

/-!
Verification of the train-detection gateway (Witmotion BLE IMU fleet).

Shallow embedding of the Python sources `witmotion_device_stable.py` and
`train_detector_stable.py`.  Real numbers of the source (Python floats) are
modelled as rationals; time stamps are rationals (seconds); byte values are
naturals.  Stateful methods become pure functions from an explicit state
record to a new state (plus observable effects such as emitted samples,
executed OS commands, attempted database inserts).
-/

namespace TrainDetection

/-- One parsed 9-channel IMU sample (`DeviceModel.deviceData` in the source:
AccX/AccY/AccZ in g, AsX/AsY/AsZ in deg/s, AngX/AngY/AngZ in deg). -/
structure Sample where
  accX : ℚ
  accY : ℚ
  accZ : ℚ
  asX : ℚ
  asY : ℚ
  asZ : ℚ
  angX : ℚ
  angY : ℚ
  angZ : ℚ
deriving DecidableEq, Repr

/-- `DeviceModel._get_sign_int16`: two's-complement reinterpretation of a
16-bit word (`if num >= 2**15: num -= 2**16`). -/
def getSignInt16 (num : ℕ) : ℤ :=
  if num ≥ 2 ^ 15 then (num : ℤ) - 2 ^ 16 else (num : ℤ)

/-- Python's `round` on an exact value: round half to even (banker's
rounding), as used by `round(x, 3)` in `DeviceModel._process_data`. -/
def pyRoundInt (x : ℚ) : ℤ :=
  let f : ℤ := ⌊x⌋
  let frac : ℚ := x - f
  if frac < 1 / 2 then f
  else if 1 / 2 < frac then f + 1
  else if f % 2 = 0 then f else f + 1

/-- Rounding to three decimals, `round(x, 3)`. -/
def round3 (x : ℚ) : ℚ := (pyRoundInt (x * 1000) : ℚ) / 1000

/-- Little-endian 16-bit word from two payload bytes, as in
`bytes_data[i+1] << 8 | bytes_data[i]`. -/
def word16 (lo hi : ℕ) : ℕ := (hi <<< 8) ||| lo

/-- `DeviceModel._process_data`: parse the 18 payload bytes of one frame into
a `Sample`.  Accelerations scale by 16 g, angular velocities by 2000 deg/s,
angles by 180 deg, each as `raw / 32768 * scale` rounded to 3 decimals. -/
def processData (b : List ℕ) : Sample :=
  let w : ℕ → ℚ := fun i => (getSignInt16 (word16 (b.getD i 0) (b.getD (i + 1) 0)) : ℚ)
  { accX := round3 (w 0 / 32768 * 16)
    accY := round3 (w 2 / 32768 * 16)
    accZ := round3 (w 4 / 32768 * 16)
    asX := round3 (w 6 / 32768 * 2000)
    asY := round3 (w 8 / 32768 * 2000)
    asZ := round3 (w 10 / 32768 * 2000)
    angX := round3 (w 12 / 32768 * 180)
    angY := round3 (w 14 / 32768 * 180)
    angZ := round3 (w 16 / 32768 * 180) }

/-- One iteration of the byte loop in `DeviceModel.process_data_queue`:
append the byte to `TempBytes`; at length 2 check the `0x55 0x61` header and
on mismatch delete the oldest byte; at length 20 parse the payload
(`TempBytes[2:]`) and clear the buffer. -/
def feedByte (buf : List ℕ) (b : ℕ) : List ℕ × Option Sample :=
  let t := buf ++ [b]
  if t.length = 2 then
    if t.getD 0 0 = 0x55 ∧ t.getD 1 0 = 0x61 then (t, none)
    else (t.drop 1, none)
  else if t.length = 20 then ([], some (processData (t.drop 2)))
  else (t, none)

/-- Feeding a whole byte sequence through the assembler, collecting the
emitted samples in order (the `for byte_val in raw_bytes` loop). -/
def feedBytes (buf : List ℕ) : List ℕ → List ℕ × List Sample
  | [] => (buf, [])
  | b :: rest =>
    let step := feedByte buf b
    let next := feedBytes step.1 rest
    (next.1, step.2.toList ++ next.2)

/-- Structural invariant of the assembly buffer: it never reaches 20 bytes
between iterations, and once it holds at least two bytes they begin with the
frame header. -/
def BufInv (buf : List ℕ) : Prop :=
  buf.length < 20 ∧ (2 ≤ buf.length → buf.take 2 = [0x55, 0x61])

theorem bufInv_nil : BufInv [] := by
  constructor
  · simp
  · intro h; simp at h

theorem bufInv_feedByte {buf : List ℕ} (h : BufInv buf) (b : ℕ) :
    BufInv (feedByte buf b).1 := by
  obtain ⟨hlen, hhdr⟩ := h
  rcases buf with _ | ⟨x, rest⟩
  · simp [feedByte, BufInv]
  rcases rest with _ | ⟨y, rest2⟩
  · by_cases hx : x = 0x55 ∧ b = 0x61
    · obtain ⟨hx1, hx2⟩ := hx
      subst hx1; subst hx2
      simp [feedByte, BufInv]
    · simp [feedByte, hx, BufInv]
  · have hhd : x = 0x55 ∧ y = 0x61 := by
      have := hhdr (by simp)
      simpa [List.take] using this
    by_cases hr : rest2.length = 17
    · simp [feedByte, hr, BufInv]
    · have hlt : rest2.length + 2 < 20 := by simpa using hlen
      refine ⟨?_, fun _ => ?_⟩
      · simp [feedByte, hr, List.length_append]
        omega
      · simp [feedByte, hr, List.take, hhd.1, hhd.2]

theorem bufInv_feedBytes {buf : List ℕ} (h : BufInv buf) (l : List ℕ) :
    BufInv (feedBytes buf l).1 := by
  induction l generalizing buf with
  | nil => simpa [feedBytes] using h
  | cons b rest ih =>
    simpa [feedBytes] using ih (bufInv_feedByte h b)

/-- C3: every complete 20-byte frame (header `0x55 0x61` plus 18 payload
bytes) fed to the codec emits exactly one sample whose nine channels are the
little-endian signed 16-bit payload words scaled by `raw/32768 × 16` for the
accelerations, `× 2000` for the angular velocities and `× 180` for the
angles, each rounded to three decimals; the assembly buffer is empty
afterwards, and a frame whose AccZ word is raw 16384 yields AccZ = 8.000. -/
theorem C3_frame_decode
    (p0 p1 p2 p3 p4 p5 p6 p7 p8 p9 p10 p11 p12 p13 p14 p15 p16 p17 : ℕ) :
    feedBytes []
        [0x55, 0x61, p0, p1, p2, p3, p4, p5, p6, p7, p8, p9,
         p10, p11, p12, p13, p14, p15, p16, p17]
      = ([], [processData
          [p0, p1, p2, p3, p4, p5, p6, p7, p8, p9,
           p10, p11, p12, p13, p14, p15, p16, p17]])
    ∧ processData
        [p0, p1, p2, p3, p4, p5, p6, p7, p8, p9,
         p10, p11, p12, p13, p14, p15, p16, p17]
      = { accX := round3 ((getSignInt16 (word16 p0 p1) : ℚ) / 32768 * 16)
          accY := round3 ((getSignInt16 (word16 p2 p3) : ℚ) / 32768 * 16)
          accZ := round3 ((getSignInt16 (word16 p4 p5) : ℚ) / 32768 * 16)
          asX := round3 ((getSignInt16 (word16 p6 p7) : ℚ) / 32768 * 2000)
          asY := round3 ((getSignInt16 (word16 p8 p9) : ℚ) / 32768 * 2000)
          asZ := round3 ((getSignInt16 (word16 p10 p11) : ℚ) / 32768 * 2000)
          angX := round3 ((getSignInt16 (word16 p12 p13) : ℚ) / 32768 * 180)
          angY := round3 ((getSignInt16 (word16 p14 p15) : ℚ) / 32768 * 180)
          angZ := round3 ((getSignInt16 (word16 p16 p17) : ℚ) / 32768 * 180) }
    ∧ (processData [0, 0, 0, 0, 0, 0x40, 0, 0, 0, 0, 0, 0, 0, 0, 0, 0, 0, 0]).accZ
      = 8 := by
  refine ⟨?_, rfl, ?_⟩
  · simp [feedBytes, feedByte]
  · have hw : word16 0 0x40 = 16384 := by decide
    have hs : getSignInt16 16384 = 16384 := by decide
    show round3 ((getSignInt16 (word16 0 0x40) : ℚ) / 32768 * 16) = 8
    rw [hw, hs]
    norm_num [round3, pyRoundInt]

/-- C4: on a two-byte header mismatch the codec discards exactly the oldest
byte; any reachable assembly buffer of length ≥ 2 starts with the header
`0x55 0x61`; and the leading-garbage stream `AA BB 55 61` + 18 payload bytes
emits exactly one sample with the buffer left empty. -/
theorem C4_resync_discards_oldest_byte :
    (∀ x b : ℕ, ¬(x = 0x55 ∧ b = 0x61) → feedByte [x] b = ([b], none))
    ∧ (∀ l : List ℕ, 2 ≤ (feedBytes [] l).1.length →
        (feedBytes [] l).1.take 2 = [0x55, 0x61])
    ∧ ∀ p0 p1 p2 p3 p4 p5 p6 p7 p8 p9 p10 p11 p12 p13 p14 p15 p16 p17 : ℕ,
        feedBytes []
            [0xAA, 0xBB, 0x55, 0x61, p0, p1, p2, p3, p4, p5, p6, p7, p8, p9,
             p10, p11, p12, p13, p14, p15, p16, p17]
          = ([], [processData
              [p0, p1, p2, p3, p4, p5, p6, p7, p8, p9,
               p10, p11, p12, p13, p14, p15, p16, p17]]) := by
  refine ⟨?_, ?_, ?_⟩
  · intro x b h
    simp [feedByte, h]
  · intro l h
    exact (bufInv_feedBytes bufInv_nil l).2 h
  · intro p0 p1 p2 p3 p4 p5 p6 p7 p8 p9 p10 p11 p12 p13 p14 p15 p16 p17
    simp [feedBytes, feedByte]

/-- Witness for C4 at concrete bytes: `AA` then `BB` is a mismatch whose
oldest byte is discarded, and a reachable 3-byte buffer starts with the
header. -/
theorem C4_witness :
    (¬(0xAA = 0x55 ∧ 0xBB = 0x61) ∧ feedByte [0xAA] 0xBB = ([0xBB], none))
    ∧ (2 ≤ (feedBytes [] [0x55, 0x61, 7]).1.length
        ∧ (feedBytes [] [0x55, 0x61, 7]).1.take 2 = [0x55, 0x61]) :=
  ⟨⟨by decide, C4_resync_discards_oldest_byte.1 0xAA 0xBB (by decide)⟩,
   ⟨by decide, C4_resync_discards_oldest_byte.2.1 [0x55, 0x61, 7] (by decide)⟩⟩

/-! ## Detector (`TrainDetector` in `train_detector_stable.py`) -/

/-- Association-list lookup, modelling Python dict access `m.get(k)` /
`m[k]` (device-number keyed dictionaries). -/
def lookupA {α : Type} (m : List (ℕ × α)) (k : ℕ) : Option α :=
  (m.find? fun p => p.1 == k).map (·.2)

/-- Per-device view the detector takes of one `IMUManager`: its `is_ready`
flag and its circular `buffer` of `(timestamp, data)` pairs. -/
structure ImuInfo where
  ready : Bool
  buffer : List (ℚ × Sample)
deriving DecidableEq

/-- Detector-relevant mutable state of `TrainDetector`. `startUploads`
records the `(device, timestamp, magnitude)` payloads handed to
`upload_event_start` (the event metadata of C1). -/
structure DetectorSt where
  running : Bool
  recording : Bool
  triggerTime : ℚ
  triggerDevice : Option ℕ
  eventData : List (ℕ × List (ℚ × Sample))
  zStopWindows : List (ℕ × List ℚ)
  startUploads : List (ℕ × ℚ × ℚ)
deriving DecidableEq

/-- Appending to `event_data[device_number]`, creating the list first when
the key is absent (`if device_number not in self.event_data: ... = []`). -/
def pushEntry (m : List (ℕ × List (ℚ × Sample))) (k : ℕ) (x : ℚ × Sample) :
    List (ℕ × List (ℚ × Sample)) :=
  if (lookupA m k).isSome then
    m.map fun p => if p.1 = k then (p.1, p.2 ++ [x]) else p
  else m ++ [(k, [x])]

/-- Appending to a `deque(maxlen=size)`: the oldest entries are dropped when
the capacity is exceeded. -/
def boundedPush (size : ℕ) (w : List ℚ) (x : ℚ) : List ℚ :=
  let w2 := w ++ [x]
  if size < w2.length then w2.drop (w2.length - size) else w2

/-- Updating `z_stop_windows[device_number]` with a fresh `|z|` value,
creating the bounded window first when the key is absent. -/
def pushWindow (m : List (ℕ × List ℚ)) (size k : ℕ) (x : ℚ) :
    List (ℕ × List ℚ) :=
  let m1 := if (lookupA m k).isSome then m else m ++ [(k, [])]
  m1.map fun p => if p.1 = k then (p.1, boundedPush size p.2 x) else p

/-- Python's `max` over a list (left fold); only applied to non-empty
windows in the source, the `[]` value is irrelevant. -/
def maxList : List ℚ → ℚ
  | [] => 0
  | x :: xs => xs.foldl max x

/-- The per-device loop body of `TrainDetector._check_stop_condition`:
skip non-ready devices, fail when a ready device has no window, an empty
window, or `max(window) ≥ stop_threshold_z`; count the checked devices and
succeed only when at least one device was checked. -/
def stopScan (windows : List (ℕ × List ℚ)) (stopThresholdZ : ℚ) :
    List (ℕ × ImuInfo) → ℕ → Bool
  | [], checked => if checked = 0 then false else true
  | (num, info) :: rest, checked =>
    if info.ready then
      match lookupA windows num with
      | none => false
      | some w =>
        if w.length = 0 then false
        else if maxList w ≥ stopThresholdZ then false
        else stopScan windows stopThresholdZ rest (checked + 1)
    else stopScan windows stopThresholdZ rest checked

/-- `TrainDetector._check_stop_condition`: `False` when there are no stop
windows at all, otherwise the device scan starting from a zero count. -/
def checkStopCondition (imus : List (ℕ × ImuInfo))
    (windows : List (ℕ × List ℚ)) (stopThresholdZ : ℚ) : Bool :=
  if windows.isEmpty then false
  else stopScan windows stopThresholdZ imus 0

/-- Modelled from the spec words for C2: one ready device's stop-window
exists, is non-empty and its maximum is below the stop threshold. -/
def quiescentOk (windows : List (ℕ × List ℚ)) (stopThresholdZ : ℚ)
    (p : ℕ × ImuInfo) : Bool :=
  match lookupA windows p.1 with
  | none => false
  | some w => !w.isEmpty && decide (maxList w < stopThresholdZ)

/-- Modelled from the spec words for C2: at least one device is currently
ready, and every currently-ready device is quiescent. -/
def specQuiescentStop (imus : List (ℕ × ImuInfo))
    (windows : List (ℕ × List ℚ)) (stopThresholdZ : ℚ) : Bool :=
  (imus.any fun p => p.2.ready) &&
  (imus.all fun p => !p.2.ready || quiescentOk windows stopThresholdZ p)

/-- The pre-roll collection loop at the end of
`TrainDetector._trigger_detection`: `event_data[num] = buffer_data.copy()`
for every manager that `is_ready` and whose `get_buffer_data()` is
non-empty (`if buffer_data:`). -/
def snapshotBuffers (imus : List (ℕ × ImuInfo)) :
    List (ℕ × List (ℚ × Sample)) :=
  imus.filterMap fun p =>
    if p.2.ready = true ∧ p.2.buffer ≠ [] then some (p.1, p.2.buffer)
    else none

/-- `TrainDetector._trigger_detection`: refuse when already recording;
otherwise start a session, record trigger metadata, hand the
`(device, timestamp, magnitude)` payload to `upload_event_start`, rebuild
`event_data` from every ready manager's non-empty buffer copy, and clear the
existing per-device stop windows. -/
def triggerDetection (imus : List (ℕ × ImuInfo)) (s : DetectorSt)
    (d : ℕ) (ts mag : ℚ) : DetectorSt :=
  if s.recording then s
  else
    { s with
      recording := true
      triggerTime := ts
      triggerDevice := some d
      eventData := snapshotBuffers imus
      zStopWindows := s.zStopWindows.map fun p => (p.1, [])
      startUploads := s.startUploads ++ [(d, ts, mag)] }

/-- `TrainDetector._data_callback`: returns the updated detector state plus
whether an `_end_recording` task was scheduled (the stop decision). -/
def dataCallback (imus : List (ℕ × ImuInfo)) (stopWindowSize : ℕ)
    (maxRecordSeconds stopThresholdZ threshold : ℚ)
    (zAxisOffset : List (ℕ × ℚ)) (s : DetectorSt)
    (d : ℕ) (ts : ℚ) (data : Sample) : DetectorSt × Bool :=
  if s.running = false then (s, false)
  else
    let z := data.accZ - (lookupA zAxisOffset d).getD 0
    if s.recording = false then
      if |z| > threshold then (triggerDetection imus s d ts |z|, false)
      else (s, false)
    else
      let s1 := { s with
        eventData := pushEntry s.eventData d (ts, data)
        zStopWindows := pushWindow s.zStopWindows stopWindowSize d |z| }
      if ts - s.triggerTime ≥ maxRecordSeconds then (s1, true)
      else if checkStopCondition imus s1.zStopWindows stopThresholdZ then
        (s1, true)
      else (s1, false)

theorem stopScan_eq (windows : List (ℕ × List ℚ)) (t : ℚ)
    (l : List (ℕ × ImuInfo)) : ∀ checked : ℕ,
    stopScan windows t l checked =
      ((l.all fun p => !p.2.ready || quiescentOk windows t p) &&
       (decide (checked ≠ 0) || l.any fun p => p.2.ready)) := by
  induction l with
  | nil =>
    intro checked
    by_cases h : checked = 0 <;> simp [stopScan, h]
  | cons q rest ih =>
    intro checked
    obtain ⟨num, info⟩ := q
    cases hrd : info.ready with
    | false => simp [stopScan, hrd, ih checked]
    | true =>
      cases hw : lookupA windows num with
      | none => simp [stopScan, hrd, quiescentOk, hw]
      | some w =>
        by_cases hlen : w.length = 0
        · have hnil : w = [] := List.length_eq_zero.mp hlen
          subst hnil
          simp [stopScan, hrd, quiescentOk, hw]
        · by_cases hmax : maxList w ≥ t
          · simp [stopScan, hrd, quiescentOk, hw, hlen, hmax, not_lt.mpr hmax]
          · have hne : w.isEmpty = false := by
              cases w with
              | nil => simp at hlen
              | cons a b => simp
            simp [stopScan, hrd, quiescentOk, hw, hlen, hmax, ih (checked + 1),
              not_le.mp hmax, hne]

theorem checkStopCondition_eq_spec (imus : List (ℕ × ImuInfo))
    (windows : List (ℕ × List ℚ)) (t : ℚ) :
    checkStopCondition imus windows t = specQuiescentStop imus windows t := by
  by_cases hw : windows.isEmpty
  · have hwnil : windows = [] := List.isEmpty_iff.mp hw
    subst hwnil
    unfold checkStopCondition specQuiescentStop
    cases hany : imus.any fun p => p.2.ready with
    | false => simp [hany]
    | true =>
      obtain ⟨p, hp, hready⟩ := List.any_eq_true.mp hany
      have hall : (imus.all fun p => !p.2.ready || quiescentOk [] t p) = false := by
        cases h : imus.all fun p => !p.2.ready || quiescentOk [] t p with
        | false => rfl
        | true =>
          have := List.all_eq_true.mp h p hp
          simp [quiescentOk, lookupA, hready] at this
      simp [hall]
  · unfold checkStopCondition specQuiescentStop
    rw [if_neg hw, stopScan_eq]
    simp [Bool.and_comm]

/-- C2: while recording, the per-sample stop decision is: stop when the
elapsed time since the trigger is at least `max_record_seconds` (hard cap);
otherwise stop exactly when at least one device is currently ready and every
currently-ready device has a non-empty stop-window whose maximum is below
`stop_threshold_z`; with no ready device the quiescence condition is false
and recording continues. -/
theorem C2_stop_decision :
    (∀ (imus : List (ℕ × ImuInfo)) (windows : List (ℕ × List ℚ)) (t : ℚ),
      checkStopCondition imus windows t = specQuiescentStop imus windows t)
    ∧ ∀ (imus : List (ℕ × ImuInfo)) (size : ℕ) (maxRec t thr : ℚ)
        (off : List (ℕ × ℚ)) (s : DetectorSt) (d : ℕ) (ts : ℚ) (data : Sample),
        s.running = true → s.recording = true →
        (dataCallback imus size maxRec t thr off s d ts data).2 =
          (decide (ts - s.triggerTime ≥ maxRec) ||
           specQuiescentStop imus
             (pushWindow s.zStopWindows size d
               |data.accZ - (lookupA off d).getD 0|) t) := by
  refine ⟨checkStopCondition_eq_spec, ?_⟩
  intro imus size maxRec t thr off s d ts data hrun hrec
  simp only [dataCallback, hrun, hrec]
  by_cases hcap : ts - s.triggerTime ≥ maxRec
  · simp [hcap]
  · simp [hcap, checkStopCondition_eq_spec]
    cases hq : specQuiescentStop imus
        (pushWindow s.zStopWindows size d
          |data.accZ - (lookupA off d).getD 0|) t <;>
      simp [hq]

/-- Sample value used in concrete witnesses: AccZ of 3 g, every other
channel zero. -/
def sampleBig : Sample := ⟨0, 0, 3, 0, 0, 0, 0, 0, 0⟩

/-- Sample value used in concrete witnesses: all channels zero. -/
def sampleZero : Sample := ⟨0, 0, 0, 0, 0, 0, 0, 0, 0⟩

/-- Detector state used in concrete witnesses: running, idle, no session
state. -/
def idleSt : DetectorSt := ⟨true, false, 0, none, [], [], []⟩

/-- Detector state used in concrete witnesses: running and recording with
trigger time 0. -/
def recSt : DetectorSt := ⟨true, true, 0, some 1, [], [], []⟩

/-- Witness for C2 at a concrete recording state: the stop decision equals
the hard-cap test or the spec-side quiescence condition. -/
theorem C2_witness :
    (dataCallback [(1, ⟨true, []⟩)] 50 60 (1/2) 2 [] recSt 1 100 sampleZero).2 =
      (decide ((100 : ℚ) - recSt.triggerTime ≥ 60) ||
       specQuiescentStop [(1, ⟨true, []⟩)]
         (pushWindow recSt.zStopWindows 50 1
           |sampleZero.accZ - (lookupA [] 1).getD 0|) (1/2)) :=
  C2_stop_decision.2 [(1, ⟨true, []⟩)] 50 60 (1/2) 2 [] recSt 1 100 sampleZero
    rfl rfl

theorem lookupA_cons {α : Type} (m k : ℕ) (v : α) (rest : List (ℕ × α)) :
    lookupA ((m, v) :: rest) k = if m = k then some v else lookupA rest k := by
  by_cases h : m = k <;> simp [lookupA, List.find?_cons, h]

theorem lookupA_snapshot_of_not_mem (imus : List (ℕ × ImuInfo)) (n : ℕ)
    (hn : n ∉ imus.map Prod.fst) :
    lookupA (snapshotBuffers imus) n = none := by
  induction imus with
  | nil => rfl
  | cons q rest ih =>
    obtain ⟨m, qi⟩ := q
    have hmn : m ≠ n := by
      intro h
      exact hn (by simp [h])
    have hn' : n ∉ rest.map Prod.fst := by
      intro h
      exact hn (by simp [h])
    have ih' := ih hn'
    simp only [snapshotBuffers] at ih' ⊢
    by_cases hc : qi.ready = true ∧ qi.buffer ≠ []
    · obtain ⟨hc1, hc2⟩ := hc
      simp [List.filterMap_cons, hc1, hc2, lookupA_cons, hmn, ih']
    · simp [List.filterMap_cons, hc, ih']

theorem lookupA_snapshot (imus : List (ℕ × ImuInfo))
    (hnd : (imus.map Prod.fst).Nodup) (n : ℕ) (info : ImuInfo)
    (hmem : (n, info) ∈ imus) :
    lookupA (snapshotBuffers imus) n =
      if info.ready = true ∧ info.buffer ≠ [] then some info.buffer
      else none := by
  induction imus with
  | nil => cases hmem
  | cons q rest ih =>
    obtain ⟨m, qi⟩ := q
    have h0 := hnd
    rw [List.map_cons, List.nodup_cons] at h0
    obtain ⟨hmk, hnd'⟩ := h0
    rcases List.mem_cons.mp hmem with heq | hmem2
    · injection heq with h1 h2
      subst h1
      subst h2
      by_cases hc : info.ready = true ∧ info.buffer ≠ []
      · obtain ⟨hc1, hc2⟩ := hc
        simp [snapshotBuffers, List.filterMap_cons, hc1, hc2, lookupA_cons]
      · have hrest := lookupA_snapshot_of_not_mem rest n hmk
        simp only [snapshotBuffers] at hrest ⊢
        simp [List.filterMap_cons, hc, hrest]
    · have hnm : m ≠ n := by
        intro h
        subst h
        exact hmk (List.mem_map.mpr ⟨(m, info), hmem2, rfl⟩)
      have ih' := ih hnd' hmem2
      simp only [snapshotBuffers] at ih' ⊢
      by_cases hc : qi.ready = true ∧ qi.buffer ≠ []
      · obtain ⟨hc1, hc2⟩ := hc
        simp [List.filterMap_cons, hc1, hc2, lookupA_cons, hnm, ih']
      · simp [List.filterMap_cons, hc, ih']

/-- C1 (amended; see `C1_counterexample`): when the detector is running and
not recording, a sample whose calibrated `|z| = |AccZ - bias[device]|`
exceeds the threshold routes to `_trigger_detection`, which transitions to
recording, records the triggering device, the sample timestamp and `|z|` as
event metadata (the `upload_event_start` payload), and seeds the event
snapshot with a copy of each READY supervisor's non-empty ring buffer keyed
by device number - a non-ready supervisor's buffer, and an empty buffer, are
not copied; a trigger call arriving while already recording returns with the
session's metadata and snapshot unchanged. -/
theorem C1_trigger_and_preroll
    (imus : List (ℕ × ImuInfo)) (size : ℕ) (maxRec t thr : ℚ)
    (off : List (ℕ × ℚ)) (s : DetectorSt) (d : ℕ) (ts : ℚ) (data : Sample)
    (hrun : s.running = true) (hrec : s.recording = false)
    (hthr : |data.accZ - (lookupA off d).getD 0| > thr)
    (hnd : (imus.map Prod.fst).Nodup) :
    dataCallback imus size maxRec t thr off s d ts data
      = (triggerDetection imus s d ts
          |data.accZ - (lookupA off d).getD 0|, false)
    ∧ (triggerDetection imus s d ts
        |data.accZ - (lookupA off d).getD 0|).recording = true
    ∧ (triggerDetection imus s d ts
        |data.accZ - (lookupA off d).getD 0|).triggerDevice = some d
    ∧ (triggerDetection imus s d ts
        |data.accZ - (lookupA off d).getD 0|).triggerTime = ts
    ∧ (triggerDetection imus s d ts
        |data.accZ - (lookupA off d).getD 0|).startUploads
        = s.startUploads ++ [(d, ts, |data.accZ - (lookupA off d).getD 0|)]
    ∧ (∀ (n : ℕ) (info : ImuInfo), (n, info) ∈ imus →
        lookupA (triggerDetection imus s d ts
            |data.accZ - (lookupA off d).getD 0|).eventData n
          = if info.ready = true ∧ info.buffer ≠ [] then some info.buffer
            else none)
    ∧ ∀ (s2 : DetectorSt) (mag : ℚ), s2.recording = true →
        triggerDetection imus s2 d ts mag = s2 := by
  refine ⟨?_, ?_, ?_, ?_, ?_, ?_, ?_⟩
  · simp [dataCallback, hrun, hrec, hthr]
  · simp [triggerDetection, hrec]
  · simp [triggerDetection, hrec]
  · simp [triggerDetection, hrec]
  · simp [triggerDetection, hrec]
  · intro n info hmem
    simp only [triggerDetection, hrec, Bool.false_eq_true, if_false]
    exact lookupA_snapshot imus hnd n info hmem
  · intro s2 mag h2
    simp [triggerDetection, h2]

/-- Fleet used in concrete C1 witness and counterexample: device 1 is ready,
device 2 is not ready, and both hold one buffered sample. -/
def imusPair : List (ℕ × ImuInfo) :=
  [(1, ⟨true, [(5, sampleZero)]⟩), (2, ⟨false, [(5, sampleZero)]⟩)]

/-- Witness for C1 at a concrete idle state: device 1's 3 g Z-sample crosses
the 2 g threshold and routes to the trigger. -/
theorem C1_witness :
    idleSt.running = true ∧ idleSt.recording = false
    ∧ |sampleBig.accZ - (lookupA [] 1).getD 0| > (2 : ℚ)
    ∧ ((imusPair.map Prod.fst).Nodup)
    ∧ dataCallback imusPair 50 60 (1/2) 2 [] idleSt 1 10 sampleBig
        = (triggerDetection imusPair idleSt 1 10
            |sampleBig.accZ - (lookupA [] 1).getD 0|, false) :=
  ⟨rfl, rfl, by norm_num [sampleBig, lookupA], by decide,
   (C1_trigger_and_preroll imusPair 50 60 (1/2) 2 [] idleSt 1 10 sampleBig
      rfl rfl (by norm_num [sampleBig, lookupA]) (by decide)).1⟩

/-- Counterexample to C1 as stated: the claim requires the snapshot to hold
a copy of EVERY supervisor's ring buffer contents keyed by device number,
but after device 1 triggers, device 2 - a supervisor with a non-empty
buffer that is not ready - has no key in the snapshot. -/
theorem C1_counterexample :
    ((2 : ℕ), (⟨false, [(5, sampleZero)]⟩ : ImuInfo)) ∈ imusPair
    ∧ ([((5 : ℚ), sampleZero)] : List (ℚ × Sample)) ≠ []
    ∧ (dataCallback imusPair 50 60 (1/2) 2 [] idleSt 1 10
        sampleBig).1.recording = true
    ∧ lookupA
        (dataCallback imusPair 50 60 (1/2) 2 [] idleSt 1 10
          sampleBig).1.eventData 2 = none := by
  refine ⟨by decide, by decide, ?_, ?_⟩ <;>
    norm_num [dataCallback, idleSt, sampleBig, sampleZero, lookupA,
      triggerDetection, snapshotBuffers, imusPair, List.filterMap_cons,
      List.find?]

/-! ## Device supervisor cleanup (`DeviceModel._cleanup`) -/

/-- `DeviceState` enum of `witmotion_device_stable.py`. -/
inductive DeviceState
  | disconnected
  | connecting
  | connected
  | discovering
  | ready
  | error
deriving DecidableEq, Repr

/-- Resource state of one `DeviceModel` touched by `_cleanup`:
`clientConnected` is `none` when `self.client is None` and `some b` when a
client exists with `is_connected = b`. -/
structure DevRuntime where
  state : DeviceState
  clientConnected : Option Bool
  hasNotifyChar : Bool
  hasWriterChar : Bool
  queue : List (ℚ × List ℕ)
  firstDataReceived : Bool
  dataTaskActive : Bool
deriving DecidableEq

/-- `DeviceModel._cleanup`: cancel the data task, best-effort
`stop_notify` and `disconnect` (each wrapped in `try/except` that only
logs, modelled by the two failure flags, which therefore cannot influence
the result), null out client and characteristics, drain the queue, and
migrate the state to DISCONNECTED only from CONNECTED, DISCOVERING or
READY (`if old_state in [...]`). -/
def cleanup (_stopNotifyFails _disconnectFails : Bool) (s : DevRuntime) :
    DevRuntime :=
  { state :=
      if s.state = DeviceState.connected ∨ s.state = DeviceState.discovering
          ∨ s.state = DeviceState.ready
      then DeviceState.disconnected
      else s.state
    clientConnected := none
    hasNotifyChar := false
    hasWriterChar := false
    queue := []
    firstDataReceived := false
    dataTaskActive := false }

/-- C6 (amended; see `C6_counterexample`): `_cleanup` is idempotent, its
result does not depend on errors raised by the stop-notify or disconnect
steps (they are caught and logged, never re-raised), and it ends in
DISCONNECTED from the starting states DISCONNECTED, CONNECTED, DISCOVERING
and READY - but from CONNECTING the state field is left at CONNECTING. -/
theorem C6_cleanup_idempotent_disconnects :
    (∀ (e1 e2 f1 f2 : Bool) (s : DevRuntime),
        cleanup f1 f2 (cleanup e1 e2 s) = cleanup e1 e2 s)
    ∧ (∀ (e1 e2 f1 f2 : Bool) (s : DevRuntime),
        cleanup e1 e2 s = cleanup f1 f2 s)
    ∧ (∀ (e1 e2 : Bool) (s : DevRuntime),
        s.state = DeviceState.disconnected ∨ s.state = DeviceState.connected
          ∨ s.state = DeviceState.discovering ∨ s.state = DeviceState.ready →
        (cleanup e1 e2 s).state = DeviceState.disconnected)
    ∧ (∀ (e1 e2 : Bool) (s : DevRuntime),
        s.state = DeviceState.connecting →
        (cleanup e1 e2 s).state = DeviceState.connecting) := by
  refine ⟨?_, ?_, ?_, ?_⟩
  · intro e1 e2 f1 f2 s
    cases hs : s.state <;> simp [cleanup, hs]
  · intro e1 e2 f1 f2 s
    rfl
  · intro e1 e2 s hs
    rcases hs with hs | hs | hs | hs <;> simp [cleanup, hs]
  · intro e1 e2 s hs
    simp [cleanup, hs]

/-- Witness for C6 at concrete states: cleaning up a READY runtime twice
equals cleaning it once and ends DISCONNECTED; the failure flags do not
matter. -/
theorem C6_witness :
    cleanup false false
        (cleanup true true
          ⟨DeviceState.ready, some true, true, true, [], true, true⟩)
      = cleanup true true
          ⟨DeviceState.ready, some true, true, true, [], true, true⟩
    ∧ (cleanup true true
        ⟨DeviceState.ready, some true, true, true, [], true, true⟩).state
      = DeviceState.disconnected :=
  ⟨C6_cleanup_idempotent_disconnects.1 true true false false
      ⟨DeviceState.ready, some true, true, true, [], true, true⟩,
   C6_cleanup_idempotent_disconnects.2.2.1 true true
      ⟨DeviceState.ready, some true, true, true, [], true, true⟩
      (by decide)⟩

/-- Counterexample to C6 as stated: from the starting state CONNECTING the
cleanup does NOT reach DISCONNECTED - the state-migration guard
`if old_state in [CONNECTED, DISCOVERING, READY]` leaves CONNECTING
untouched. -/
theorem C6_counterexample :
    (cleanup true true
        ⟨DeviceState.connecting, some true, true, true, [], false, true⟩).state
      ≠ DeviceState.disconnected := by
  decide

/-! ## Event writer (`TrainDetector._save_event_data_sync`) -/

/-- Observable effects of one `_save_event_data_sync` run. -/
structure SaveOutcome where
  dirCreated : Bool
  savedDevices : List ℕ
  metadataWritten : Bool
  dbInsertAttempted : Bool
deriving DecidableEq, Repr

/-- `TrainDetector._save_event_data_sync` with I/O modelled by oracles:
`mkdirOk` for the event-directory creation (failure logs and returns),
`csvOk` per device file (an `IOError` logs and `continue`s, skipping that
device), `metaOk` for the `metadata.json` write.  A device file is written
only for a non-empty data list (`if not data_list: continue`).  When no
file was saved the function logs and returns.  The metadata `try/except
IOError` only logs - it does NOT return - and `_save_to_database` is then
called unconditionally. -/
def saveEventDataSync (mkdirOk : Bool) (csvOk : ℕ → Bool) (metaOk : Bool)
    (eventDataCopy : List (ℕ × List (ℚ × Sample))) : SaveOutcome :=
  if mkdirOk = false then ⟨false, [], false, false⟩
  else
    let saved :=
      (eventDataCopy.filter fun p => !p.2.isEmpty && csvOk p.1).map Prod.fst
    if saved.isEmpty then ⟨true, [], false, false⟩
    else ⟨true, saved, metaOk, true⟩

/-- C5 (amended; see `C5_counterexample`): when the metadata.json write
fails with an I/O error, the event writer logs the error and CONTINUES: the
metadata file is not written but the row insert into the events database is
still performed (provided the event directory was created and at least one
device file was saved). -/
theorem C5_metadata_error_still_inserts (csvOk : ℕ → Bool)
    (eventDataCopy : List (ℕ × List (ℚ × Sample)))
    (hsaved : ((eventDataCopy.filter fun p => !p.2.isEmpty && csvOk p.1).map
        Prod.fst).isEmpty = false) :
    (saveEventDataSync true csvOk false eventDataCopy).metadataWritten = false
    ∧ (saveEventDataSync true csvOk false eventDataCopy).dbInsertAttempted
      = true
    ∧ ∀ metaOk : Bool,
        (saveEventDataSync true csvOk metaOk eventDataCopy).dbInsertAttempted
          = true := by
  refine ⟨?_, ?_, ?_⟩
  · simp [saveEventDataSync, hsaved]
  · simp [saveEventDataSync, hsaved]
  · intro metaOk
    simp [saveEventDataSync, hsaved]

/-- Witness for C5 at a concrete event: one device with one sample saved,
metadata write failing. -/
theorem C5_witness :
    ((([((1 : ℕ), [((0 : ℚ), sampleZero)])].filter
        fun p => !p.2.isEmpty && (fun _ => true) p.1).map Prod.fst).isEmpty
      = false)
    ∧ (saveEventDataSync true (fun _ => true) false
        [(1, [(0, sampleZero)])]).dbInsertAttempted = true :=
  ⟨by decide,
   (C5_metadata_error_still_inserts (fun _ => true) [(1, [(0, sampleZero)])]
      (by decide)).2.1⟩

/-- Counterexample to C5 as stated: the claim says a metadata I/O error
makes the writer return WITHOUT a database insert, but on a concrete event
(directory created, one device file saved, metadata write failing) the
database insert is still attempted. -/
theorem C5_counterexample :
    (saveEventDataSync true (fun _ => true) false
        [(1, [(0, sampleZero)])]).metadataWritten = false
    ∧ (saveEventDataSync true (fun _ => true) false
        [(1, [(0, sampleZero)])]).dbInsertAttempted = true := by
  decide

/-! ## Sliding-window health (`DeviceModel.check_sliding_window_health`,
`IMUManager.check_and_reconnect`) -/

/-- Number of entries in a window slice whose `healthy` flag is false. -/
def unhealthyCount (recent : List (ℚ × Bool)) : ℕ :=
  (recent.filter fun e => !e.2).length

/-- `DeviceModel.check_sliding_window_health`: healthy on an empty window;
filter the entries of the last 1 second (`current_time - ts <= 1.0`);
healthy when none remain; otherwise unhealthy exactly when
`(unhealthy_count / total_count) * 100 >= trigger_percentage`. -/
def checkSlidingWindowHealth (now : ℚ) (window : List (ℚ × Bool))
    (triggerPercentage : ℚ) : Bool :=
  if window.isEmpty then true
  else if (window.filter fun e => decide (now - e.1 ≤ 1)).isEmpty then true
  else if (unhealthyCount (window.filter fun e => decide (now - e.1 ≤ 1)) : ℚ)
      / (((window.filter fun e => decide (now - e.1 ≤ 1)).length : ℚ)) * 100
      ≥ triggerPercentage then false
  else true

/-- The decision chain of `IMUManager.check_and_reconnect` up to the point
where the reconnection flow starts: the guards (`self.reconnecting`, the
connection lock, the health-check interval, readiness and device presence)
each return `False` early, and otherwise reconnection proceeds unless both
the basic and the sliding-window check are healthy. -/
def checkAndReconnectProceeds (reconnecting lockBusy : Bool)
    (now lastHealthCheck interval : ℚ) (isReady hasDevice : Bool)
    (basicHealthy windowHealthy : Bool) : Bool :=
  if reconnecting then false
  else if lockBusy then false
  else if now - lastHealthCheck < interval then false
  else if !isReady || !hasDevice then false
  else if basicHealthy && windowHealthy then false
  else true

/-- C7: the sliding-window check reports unhealthy exactly when the recent
slice (entries within the last 1 second) is non-empty and the unhealthy
fraction in it is at least `trigger_percentage` (stated multiplied out:
`100 · unhealthy ≥ trigger · total`); an empty window or an empty recent
slice reports healthy; and an unhealthy window result makes
`check_and_reconnect` proceed with a reconnection whenever its guards
pass. -/
theorem C7_sliding_window_health :
    (∀ (now : ℚ) (window : List (ℚ × Bool)) (t : ℚ),
      checkSlidingWindowHealth now window t = false ↔
        ((window.filter fun e => decide (now - e.1 ≤ 1)) ≠ [] ∧
         100 * (unhealthyCount (window.filter fun e => decide (now - e.1 ≤ 1)) : ℚ)
           ≥ t * (((window.filter fun e => decide (now - e.1 ≤ 1)).length : ℚ))))
    ∧ (∀ (now t : ℚ), checkSlidingWindowHealth now [] t = true)
    ∧ (∀ (now : ℚ) (window : List (ℚ × Bool)) (t : ℚ),
        (window.filter fun e => decide (now - e.1 ≤ 1)) = [] →
        checkSlidingWindowHealth now window t = true)
    ∧ (∀ (now lastHealthCheck interval : ℚ) (basicHealthy : Bool),
        now - lastHealthCheck ≥ interval →
        checkAndReconnectProceeds false false now lastHealthCheck interval
          true true basicHealthy false = true) := by
  refine ⟨?_, ?_, ?_, ?_⟩
  · intro now window t
    rw [checkSlidingWindowHealth]
    by_cases hw : window.isEmpty = true
    · have hwin : window = [] := List.isEmpty_iff.mp hw
      subst hwin
      rw [if_pos hw]
      exact ⟨fun h => absurd h (by simp), fun h => absurd rfl h.1⟩
    · rw [if_neg hw]
      by_cases hrec : (window.filter fun e => decide (now - e.1 ≤ 1)).isEmpty
          = true
      · rw [if_pos hrec]
        have hnil := List.isEmpty_iff.mp hrec
        exact ⟨fun h => absurd h (by simp), fun h => absurd hnil h.1⟩
      · rw [if_neg hrec]
        have hne : (window.filter fun e => decide (now - e.1 ≤ 1)) ≠ [] := by
          intro h
          rw [h] at hrec
          exact hrec rfl
        have hpos : (0 : ℚ) <
            (((window.filter fun e => decide (now - e.1 ≤ 1)).length : ℚ)) := by
          have := List.length_pos.mpr hne
          exact_mod_cast this
        by_cases hcond : (unhealthyCount
              (window.filter fun e => decide (now - e.1 ≤ 1)) : ℚ)
            / (((window.filter fun e => decide (now - e.1 ≤ 1)).length : ℚ))
            * 100 ≥ t
        · rw [if_pos hcond]
          refine ⟨fun _ => ⟨hne, ?_⟩, fun _ => rfl⟩
          rw [ge_iff_le, div_mul_eq_mul_div, le_div_iff₀ hpos] at hcond
          linarith
        · rw [if_neg hcond]
          refine ⟨fun h => absurd h (by simp), ?_⟩
          rintro ⟨-, hfrac⟩
          exfalso
          apply hcond
          rw [ge_iff_le, div_mul_eq_mul_div, le_div_iff₀ hpos]
          linarith
  · intro now t
    simp [checkSlidingWindowHealth]
  · intro now window t h
    rw [checkSlidingWindowHealth]
    by_cases hw : window.isEmpty = true
    · rw [if_pos hw]
    · rw [if_neg hw, if_pos (by rw [h]; rfl)]
  · intro now lastHealthCheck interval basicHealthy h
    simp [checkAndReconnectProceeds, not_lt.mpr h]

/-- Witness for C7 at a concrete window: a single entry one unhealthy
sample old reports unhealthy at the default 70 % trigger, and the
reconnection decision proceeds when the guards pass. -/
theorem C7_witness :
    checkSlidingWindowHealth 0 [(0, false)] 70 = false
    ∧ ((0 : ℚ) - 0 ≥ (0 : ℚ)
        ∧ checkAndReconnectProceeds false false 0 0 0 true true true false
          = true) :=
  ⟨(C7_sliding_window_health.1 0 [(0, false)] 70).mpr
      ⟨by norm_num [List.filter], by norm_num [List.filter, unhealthyCount]⟩,
   by norm_num,
   C7_sliding_window_health.2.2.2 0 0 0 true (by norm_num)⟩

/-! ## OS-level radio recovery cooldowns (`TrainDetector.run`,
`TrainDetector._os_level_ble_cleanup`) -/

/-- The two OS recovery commands the cleanup can execute. -/
inductive RecoveryCmd
  | removeDevice
  | resetRadio
deriving DecidableEq, Repr

/-- Observable outcome of one `_os_level_ble_cleanup` call: which commands
ran, whether recovery succeeded, and the per-device cleanup history entry
afterwards (recorded only on success:
`if success: self.os_cleanup_history[mac] = current_time`). -/
structure OsCleanupResult where
  commandsRun : List RecoveryCmd
  success : Bool
  newLastCleanup : Option ℚ
deriving DecidableEq, Repr

/-- The command phase of `_os_level_ble_cleanup`: try
`bluetoothctl remove` first; on failure fall back to
`hciconfig hci0 reset`. -/
def runRecoveryCommands (now : ℚ) (lastCleanup : Option ℚ)
    (removeOk resetOk : Bool) : OsCleanupResult :=
  if removeOk then ⟨[RecoveryCmd.removeDevice], true, some now⟩
  else if resetOk then
    ⟨[RecoveryCmd.removeDevice, RecoveryCmd.resetRadio], true, some now⟩
  else ⟨[RecoveryCmd.removeDevice, RecoveryCmd.resetRadio], false, lastCleanup⟩

/-- `TrainDetector._os_level_ble_cleanup`: when the device has a cleanup
history entry and `current_time - last_cleanup < OS_CLEANUP_COOLDOWN`, log
and return `False` before any command runs; otherwise run the recovery
commands. -/
def osLevelBleCleanup (now : ℚ) (lastCleanup : Option ℚ) (cooldown : ℚ)
    (removeOk resetOk : Bool) : OsCleanupResult :=
  match lastCleanup with
  | some last =>
    if now - last < cooldown then ⟨[], false, lastCleanup⟩
    else runRecoveryCommands now lastCleanup removeOk resetOk
  | none => runRecoveryCommands now lastCleanup removeOk resetOk

/-- The escalation gate in `TrainDetector.run`: a device whose supervisor
requests OS cleanup is deferred (`continue`) while
`current_time - last_os_cleanup_global < os_cleanup_global_cooldown`. -/
def escalationProceeds (shouldTrigger : Bool)
    (now lastOsCleanupGlobal globalCooldown : ℚ) : Bool :=
  shouldTrigger && !(decide (now - lastOsCleanupGlobal < globalCooldown))

/-- C9: OS-level radio recovery is never performed while a cooldown is
active - the run-loop defers escalation while less than the global cleanup
cooldown (default 300 s) has elapsed since the last OS cleanup, and
`_os_level_ble_cleanup` returns `False` without running a single recovery
command while less than the per-device cooldown (default 600 s) has elapsed
since the device's last successful cleanup. -/
theorem C9_cooldowns_block_recovery :
    (∀ (shouldTrigger : Bool) (now lastG gcd : ℚ), now - lastG < gcd →
        escalationProceeds shouldTrigger now lastG gcd = false)
    ∧ ∀ (now last cd : ℚ) (removeOk resetOk : Bool), now - last < cd →
        osLevelBleCleanup now (some last) cd removeOk resetOk
          = ⟨[], false, some last⟩ := by
  constructor
  · intro shouldTrigger now lastG gcd h
    simp [escalationProceeds, h]
  · intro now last cd removeOk resetOk h
    simp [osLevelBleCleanup, h]

/-- Witness for C9 with the default cooldowns: 100 s after a global
cleanup, escalation is deferred; 500 s after a device's successful
cleanup, its OS cleanup runs no command. -/
theorem C9_witness :
    ((100 : ℚ) - 0 < 300 ∧ escalationProceeds true 100 0 300 = false)
    ∧ ((500 : ℚ) - 0 < 600
        ∧ osLevelBleCleanup 500 (some 0) 600 true true = ⟨[], false, some 0⟩) :=
  ⟨⟨by norm_num, C9_cooldowns_block_recovery.1 true 100 0 300 (by norm_num)⟩,
   ⟨by norm_num, C9_cooldowns_block_recovery.2 500 0 600 true true (by norm_num)⟩⟩

/-! ## Output-rate configuration (`DeviceModel.setOutputFreq`) -/

/-- `DeviceModel.freqMap`: supported output frequencies and their
output-rate register values. -/
def freqMap : List (ℚ × ℕ) :=
  [(1/10, 0x0001), (1/2, 0x0002), (1, 0x0003), (2, 0x0004),
   (5, 0x0005), (10, 0x0006), (20, 0x0007), (50, 0x0008),
   (100, 0x0009), (200, 0x000B)]

/-- The supported frequencies (the dict keys, in insertion order). -/
def freqKeys : List ℚ := freqMap.map Prod.fst

/-- `max((f for f in self.freqMap if f <= freq), default=50)`. -/
def closestFreq (freq : ℚ) : ℚ :=
  match freqKeys.filter fun k => decide (k ≤ freq) with
  | [] => 50
  | x :: xs => xs.foldl max x

/-- Register value of a supported frequency (`self.freqMap[closest_freq]`). -/
def freqValue (q : ℚ) : ℕ :=
  ((freqMap.find? fun p => decide (p.1 = q)).map Prod.snd).getD 0

/-- `DeviceModel._get_write_bytes`: `[0xff, 0xaa, reg, value & 0xff,
value >> 8]`. -/
def getWriteBytes (regAddr value : ℕ) : List ℕ :=
  [0xff, 0xaa, regAddr, value &&& 0xff, value >>> 8]

/-- The output-rate configuration packet `setOutputFreq` sends (register
0x03 with the chosen frequency's register value). -/
def setOutputFreqCmd (freq : ℚ) : List ℕ :=
  getWriteBytes 0x03 (freqValue (closestFreq freq))

theorem foldl_max_mem (xs : List ℚ) (a : ℚ) :
    xs.foldl max a = a ∨ xs.foldl max a ∈ xs := by
  induction xs generalizing a with
  | nil => exact Or.inl rfl
  | cons x rest ih =>
    rcases ih (max a x) with h | h
    · rcases max_choice a x with he | he
      · exact Or.inl (by rw [List.foldl_cons, h, he])
      · exact Or.inr (by rw [List.foldl_cons, h, he]; exact List.mem_cons_self x rest)
    · exact Or.inr (List.mem_cons_of_mem x h)

theorem le_foldl_max (xs : List ℚ) (a : ℚ) :
    a ≤ xs.foldl max a ∧ ∀ x ∈ xs, x ≤ xs.foldl max a := by
  induction xs generalizing a with
  | nil => exact ⟨le_refl a, by simp⟩
  | cons y rest ih =>
    have h := ih (max a y)
    refine ⟨le_trans (le_max_left a y) h.1, ?_⟩
    intro x hx
    rcases List.mem_cons.mp hx with rfl | hx2
    · exact le_trans (le_max_right a x) h.1
    · exact h.2 x hx2

/-- C10: for every requested output frequency, `setOutputFreq` selects the
greatest supported frequency that is at most the request and writes its
register value through register 0x03; below 0.1 Hz no supported frequency
qualifies and the function falls back to the 50 Hz register value 0x0008. -/
theorem C10_closest_freq (freq : ℚ) :
    ((1/10 : ℚ) ≤ freq →
      closestFreq freq ∈ freqKeys ∧ closestFreq freq ≤ freq ∧
        ∀ k ∈ freqKeys, k ≤ freq → k ≤ closestFreq freq)
    ∧ (freq < 1/10 →
        closestFreq freq = 50
        ∧ setOutputFreqCmd freq = [0xff, 0xaa, 0x03, 0x08, 0x00])
    ∧ setOutputFreqCmd freq = getWriteBytes 0x03 (freqValue (closestFreq freq)) := by
  refine ⟨?_, ?_, rfl⟩
  · intro hf
    have hmem : (1/10 : ℚ) ∈ freqKeys.filter fun k => decide (k ≤ freq) := by
      refine List.mem_filter.mpr ⟨by norm_num [freqKeys, freqMap], by simpa using hf⟩
    cases hq : freqKeys.filter fun k => decide (k ≤ freq) with
    | nil =>
      rw [hq] at hmem
      cases hmem
    | cons x xs =>
      have hclosest : closestFreq freq = xs.foldl max x := by
        rw [closestFreq, hq]
      have hsub : ∀ y ∈ x :: xs, y ∈ freqKeys ∧ y ≤ freq := by
        intro y hy
        rw [← hq] at hy
        have h2 := List.mem_filter.mp hy
        exact ⟨h2.1, by simpa using h2.2⟩
      have hin : xs.foldl max x ∈ x :: xs := by
        rcases foldl_max_mem xs x with h | h
        · rw [h]; exact List.mem_cons_self x xs
        · exact List.mem_cons_of_mem x h
      refine ⟨hclosest ▸ (hsub _ hin).1, hclosest ▸ (hsub _ hin).2, ?_⟩
      intro k hk hkf
      have hkmem : k ∈ x :: xs := by
        rw [← hq]
        exact List.mem_filter.mpr ⟨hk, by simpa using hkf⟩
      rw [hclosest]
      rcases List.mem_cons.mp hkmem with rfl | hk2
      · exact (le_foldl_max xs k).1
      · exact (le_foldl_max xs x).2 k hk2
  · intro hf
    have h1 : decide ((1/10 : ℚ) ≤ freq) = false := decide_eq_false (by linarith)
    have h2 : decide ((1/2 : ℚ) ≤ freq) = false := decide_eq_false (by linarith)
    have h3 : decide ((1 : ℚ) ≤ freq) = false := decide_eq_false (by linarith)
    have h4 : decide ((2 : ℚ) ≤ freq) = false := decide_eq_false (by linarith)
    have h5 : decide ((5 : ℚ) ≤ freq) = false := decide_eq_false (by linarith)
    have h6 : decide ((10 : ℚ) ≤ freq) = false := decide_eq_false (by linarith)
    have h7 : decide ((20 : ℚ) ≤ freq) = false := decide_eq_false (by linarith)
    have h8 : decide ((50 : ℚ) ≤ freq) = false := decide_eq_false (by linarith)
    have h9 : decide ((100 : ℚ) ≤ freq) = false := decide_eq_false (by linarith)
    have h10 : decide ((200 : ℚ) ≤ freq) = false := decide_eq_false (by linarith)
    have hfil : (freqKeys.filter fun k => decide (k ≤ freq)) = [] := by
      simp only [freqKeys, freqMap, List.map_cons, List.map_nil,
        List.filter_cons, List.filter_nil, h1, h2, h3, h4, h5, h6, h7, h8,
        h9, h10, Bool.false_eq_true, if_false]
    have hc : closestFreq freq = 50 := by
      rw [closestFreq, hfil]
    refine ⟨hc, ?_⟩
    rw [setOutputFreqCmd, hc]
    have hv : freqValue 50 = 8 := by
      norm_num [freqValue, freqMap, List.find?]
    rw [hv]
    decide

/-- Witness for C10 at concrete frequencies: a request of 60 Hz selects
50 Hz (the greatest supported value at most 60), and a request of 0.05 Hz
falls back to the 50 Hz register value. -/
theorem C10_witness :
    ((1/10 : ℚ) ≤ 60 ∧ closestFreq 60 ∈ freqKeys ∧ closestFreq 60 ≤ 60)
    ∧ ((1/20 : ℚ) < 1/10 ∧ closestFreq (1/20) = 50
        ∧ setOutputFreqCmd (1/20) = [0xff, 0xaa, 0x03, 0x08, 0x00]) :=
  ⟨⟨by norm_num, ((C10_closest_freq 60).1 (by norm_num)).1,
     ((C10_closest_freq 60).1 (by norm_num)).2.1⟩,
   ⟨by norm_num, ((C10_closest_freq (1/20)).2.1 (by norm_num)).1,
     ((C10_closest_freq (1/20)).2.1 (by norm_num)).2⟩⟩

/-! ## Event identifiers (`TrainDetector._trigger_detection`) -/

/-- Zero-padded `w`-digit decimal rendering of `n` as character codes
(digit `d` is code `48 + d`); position `i` carries the digit of weight
`10 ^ (w - 1 - i)`, matching `strftime`'s fixed-width numeric fields. -/
def padDigits (w n : ℕ) : List ℕ :=
  (List.range w).map fun i => 48 + n / 10 ^ (w - 1 - i) % 10

/-- `datetime.strftime('%Y%m%d_%H%M%S_%f')` of a broken-down timestamp as
character codes (95 is the underscore; `%f` is the 6-digit microsecond
field). -/
def strftimeCodes (y mo d h mi s micro : ℕ) : List ℕ :=
  padDigits 4 y ++ padDigits 2 mo ++ padDigits 2 d ++ [95] ++
    padDigits 2 h ++ padDigits 2 mi ++ padDigits 2 s ++ [95] ++
    padDigits 6 micro

/-- `strftime('%Y%m%d_%H%M%S_%f')[:19]` - truncation to milliseconds. -/
def baseEventId (y mo d h mi s micro : ℕ) : List ℕ :=
  (strftimeCodes y mo d h mi s micro).take 19

/-- `str(n)` as character codes (no padding), for the collision counter. -/
def natCodes (n : ℕ) : List ℕ :=
  if h : n < 10 then [48 + n]
  else natCodes (n / 10) ++ [48 + n % 10]
termination_by n
decreasing_by
  exact Nat.div_lt_self (by omega) (by omega)

/-- The candidate names the collision loop tries in order: the base id
itself, then `f"{base_id}_{counter}"` for counter 1, 2, ... -/
def candidateId (base : List ℕ) : ℕ → List ℕ
  | 0 => base
  | k + 1 => base ++ 95 :: natCodes (k + 1)

/-- The `while (self.output_dir / f"event_{event_id}").exists()` loop of
`_trigger_detection`: `occupied` is the (finite) set of directory names
already on disk, and the fuel bounds the iterations; `chooseEventId`
supplies fuel `occupied.length + 1`, which always suffices because the
candidates are pairwise distinct. -/
def eventIdLoop (occupied : List (List ℕ)) (base cur : List ℕ)
    (counter fuel : ℕ) : List ℕ :=
  match fuel with
  | 0 => cur
  | fuel + 1 =>
    if cur ∈ occupied then
      eventIdLoop occupied base (base ++ 95 :: natCodes counter)
        (counter + 1) fuel
    else cur

/-- The event-id selection of `_trigger_detection`: start from the base id
with counter 1. -/
def chooseEventId (occupied : List (List ℕ)) (base : List ℕ) : List ℕ :=
  eventIdLoop occupied base base 1 (occupied.length + 1)

/-- Decimal value of a digit-code list (inverse of `natCodes`). -/
def codesVal (l : List ℕ) : ℕ :=
  l.foldl (fun acc c => acc * 10 + (c - 48)) 0

theorem codesVal_natCodes (n : ℕ) : codesVal (natCodes n) = n := by
  induction n using Nat.strong_induction_on with
  | _ n ih =>
    rw [natCodes]
    split
    · next h =>
      simp [codesVal]
    · next h =>
      have hlt : n / 10 < n := Nat.div_lt_self (by omega) (by omega)
      have ihv := ih (n / 10) hlt
      rw [codesVal] at ihv ⊢
      rw [List.foldl_append]
      simp only [List.foldl_cons, List.foldl_nil]
      rw [ihv]
      omega

theorem natCodes_inj {m n : ℕ} (h : natCodes m = natCodes n) : m = n := by
  have h2 := congrArg codesVal h
  rwa [codesVal_natCodes, codesVal_natCodes] at h2

theorem candidateId_inj (base : List ℕ) :
    Function.Injective (candidateId base) := by
  intro j k h
  rcases j with _ | j <;> rcases k with _ | k
  · rfl
  · simp [candidateId] at h
  · simp [candidateId] at h
  · simp only [candidateId] at h
    have h2 := List.append_cancel_left h
    have h3 : natCodes (j + 1) = natCodes (k + 1) := by
      injection h2
    have := natCodes_inj h3
    omega

theorem exists_candidate_not_mem (occupied : List (List ℕ))
    (base : List ℕ) :
    ∃ k, k ≤ occupied.length ∧ candidateId base k ∉ occupied := by
  by_contra hcon
  push_neg at hcon
  have hsub : (Finset.range (occupied.length + 1)).image (candidateId base)
      ⊆ occupied.toFinset := by
    intro x hx
    obtain ⟨k, hk, rfl⟩ := Finset.mem_image.mp hx
    have hk2 : k ≤ occupied.length := by
      have := Finset.mem_range.mp hk
      omega
    exact List.mem_toFinset.mpr (hcon k hk2)
  have hcard := Finset.card_le_card hsub
  rw [Finset.card_image_of_injective _ (candidateId_inj base),
    Finset.card_range] at hcard
  have hle := occupied.toFinset_card_le
  omega

theorem eventIdLoop_spec (occupied : List (List ℕ)) (base : List ℕ) :
    ∀ fuel c : ℕ,
      (∃ k, c ≤ k ∧ k ≤ c + fuel ∧ candidateId base k ∉ occupied) →
      ∃ m, c ≤ m ∧ candidateId base m ∉ occupied ∧
        eventIdLoop occupied base (candidateId base c) (c + 1) fuel
          = candidateId base m ∧
        ∀ j, c ≤ j → j < m → candidateId base j ∈ occupied := by
  intro fuel
  induction fuel with
  | zero =>
    rintro c ⟨k, h1, h2, h3⟩
    have hkc : k = c := by omega
    refine ⟨c, le_refl c, hkc ▸ h3, rfl, ?_⟩
    intro j hj1 hj2
    exact absurd hj2 (by omega)
  | succ fuel ih =>
    rintro c ⟨k, h1, h2, h3⟩
    by_cases hcur : candidateId base c ∈ occupied
    · have hne : k ≠ c := by
        intro he
        rw [he] at h3
        exact h3 hcur
      obtain ⟨m, hm1, hm2, hm3, hm4⟩ :=
        ih (c + 1) ⟨k, by omega, by omega, h3⟩
      refine ⟨m, by omega, hm2, ?_, ?_⟩
      · rw [eventIdLoop, if_pos hcur]
        exact hm3
      · intro j hj1 hj2
        rcases Nat.eq_or_lt_of_le hj1 with he | hlt
        · rw [← he]
          exact hcur
        · exact hm4 j (by omega) hj2
    · refine ⟨c, le_refl c, hcur, by rw [eventIdLoop, if_neg hcur], ?_⟩
      intro j hj1 hj2
      exact absurd hj2 (by omega)

theorem take3_padDigits6 (micro : ℕ) :
    (padDigits 6 micro).take 3 = padDigits 3 (micro / 1000) := by
  have h6 : List.range 6 = [0, 1, 2, 3, 4, 5] := by decide
  have h3 : List.range 3 = [0, 1, 2] := by decide
  rw [padDigits, padDigits, h6, h3]
  simp only [List.map_cons, List.map_nil, List.take_cons, List.take_nil]
  norm_num
  refine ⟨?_, ?_⟩ <;> rw [Nat.div_div_eq_div_mul]

theorem baseEventId_eq (y mo d h mi s micro : ℕ) :
    baseEventId y mo d h mi s micro
      = padDigits 4 y ++ padDigits 2 mo ++ padDigits 2 d ++ [95] ++
        padDigits 2 h ++ padDigits 2 mi ++ padDigits 2 s ++ [95] ++
        padDigits 3 (micro / 1000) := by
  rw [baseEventId, strftimeCodes, List.take_append_eq_append_take]
  have hlen : (padDigits 4 y ++ padDigits 2 mo ++ padDigits 2 d ++ [95] ++
      padDigits 2 h ++ padDigits 2 mi ++ padDigits 2 s ++ [95]).length
      = 16 := by
    simp [padDigits]
  rw [hlen, List.take_of_length_le (by rw [hlen]; omega)]
  norm_num [take3_padDigits6]

/-- C8: the chosen event id is the trigger time rendered as
`YYYYMMDD_HHMMSS_mmm` (microseconds truncated to milliseconds by the
`[:19]` slice), and on a collision with an existing `event_<id>` directory
the smallest numeric suffix `_k` (k = 1, 2, ...) whose directory does not
exist is appended, so the identifier chosen at creation time never names an
existing directory. -/
theorem C8_event_id_selection :
    (∀ y mo d h mi s micro : ℕ,
        baseEventId y mo d h mi s micro
          = padDigits 4 y ++ padDigits 2 mo ++ padDigits 2 d ++ [95] ++
            padDigits 2 h ++ padDigits 2 mi ++ padDigits 2 s ++ [95] ++
            padDigits 3 (micro / 1000))
    ∧ ∀ (occupied : List (List ℕ)) (base : List ℕ),
        chooseEventId occupied base ∉ occupied
        ∧ (base ∉ occupied → chooseEventId occupied base = base)
        ∧ (base ∈ occupied → ∃ k, 1 ≤ k ∧
            chooseEventId occupied base = candidateId base k ∧
            candidateId base k ∉ occupied ∧
            ∀ j, 1 ≤ j → j < k → candidateId base j ∈ occupied) := by
  refine ⟨baseEventId_eq, ?_⟩
  intro occupied base
  obtain ⟨k0, hk0le, hk0⟩ := exists_candidate_not_mem occupied base
  obtain ⟨m, hm0, hm2, hm3, hm4⟩ :=
    eventIdLoop_spec occupied base (occupied.length + 1) 0
      ⟨k0, by omega, by omega, hk0⟩
  have hch : chooseEventId occupied base = candidateId base m := by
    rw [chooseEventId]
    exact hm3
  refine ⟨?_, ?_, ?_⟩
  · rw [hch]
    exact hm2
  · intro hb
    rcases Nat.eq_zero_or_pos m with rfl | hpos
    · rw [hch]
      rfl
    · exact absurd (hm4 0 (le_refl 0) hpos) hb
  · intro hb
    rcases Nat.eq_zero_or_pos m with rfl | hpos
    · exact absurd hb hm2
    · refine ⟨m, hpos, hch, hm2, ?_⟩
      intro j hj1 hj2
      exact hm4 j (by omega) hj2

/-- Witness for C8 at a concrete occupied set: the base name `a` (code 97)
is taken, so the loop picks `a_1` - the smallest free suffix - and the
chosen id names no existing directory. -/
theorem C8_witness :
    chooseEventId [[97]] [97] ∉ ([[97]] : List (List ℕ))
    ∧ ([97] ∈ ([[97]] : List (List ℕ))
        ∧ ∃ k, 1 ≤ k ∧ chooseEventId [[97]] [97] = candidateId [97] k ∧
            candidateId [97] k ∉ ([[97]] : List (List ℕ)) ∧
            ∀ j, 1 ≤ j → j < k → candidateId [97] j ∈ ([[97]] : List (List ℕ))) :=
  ⟨(C8_event_id_selection.2 [[97]] [97]).1,
   by decide,
   (C8_event_id_selection.2 [[97]] [97]).2.2 (by decide)⟩

end TrainDetection
